import Mathlib

/-!
Shallow embedding of the dataflow pipeline engine in `src/test.py`
(classes `BaseComponent`, `Pipeline`, and the three sample components
`TextPreprocessor`, `TextLengthCalculator`, `StringIntComparator`).

Python dictionaries are modelled as insertion-ordered association lists
(`Dict`): item assignment replaces the value in place when the key is
present and appends at the end otherwise, exactly like a Python `dict`;
`dict.update` folds item assignment over the argument in its order.
Python objects are modelled by a heap mapping a numeric identity to the
object's state, so that the object identity used by `Pipeline.connections`
keys and by the `component == output_component` test is the heap key.
Python exceptions are modelled by `Except PyErr`; `Pipeline.run` catches
only `NotImplementedError`, all other errors propagate to the caller.
-/

set_option maxRecDepth 4000

/-- Values flowing through slots: Python strings and ints (slot contents
are dynamically typed in the source; only these two types occur). -/
inductive Value where
  | vstr (s : String)
  | vint (n : Int)
deriving DecidableEq, Repr

/-- Python exceptions relevant to the source: NotImplementedError (raised
by BaseComponent.execute), ValueError (raised by Pipeline.connect),
KeyError (indexing a dict with an absent key), and typeError standing for
the TypeError/AttributeError raised when a sample component receives a
value of the wrong runtime type. -/
inductive PyErr where
  | notImplementedError
  | valueError
  | keyError
  | typeError
deriving DecidableEq, Repr

/-- Insertion-ordered association list modelling a Python dict. -/
abbrev Dict (κ α : Type) := List (κ × α)

/-- Membership test, `k in d` on a Python dict. -/
def dcontains [BEq κ] (d : Dict κ α) (k : κ) : Bool :=
  d.any (fun p => p.1 == k)

/-- Lookup, `d[k]` on a Python dict (`none` = KeyError at the call site). -/
def dlookup [BEq κ] (d : Dict κ α) (k : κ) : Option α :=
  (d.find? (fun p => p.1 == k)).map (fun p => p.2)

/-- Item assignment `d[k] = v` on a Python dict: replace in place when the
key is present, append otherwise. -/
def dinsert [BEq κ] (d : Dict κ α) (k : κ) (v : α) : Dict κ α :=
  if dcontains d k then d.map (fun p => if p.1 == k then (k, v) else p)
  else d ++ [(k, v)]

/-- Python `d.update(e)`: item assignment folded over `e` in order. -/
def dupdate [BEq κ] (d e : Dict κ α) : Dict κ α :=
  e.foldl (fun acc p => dinsert acc p.1 p.2) d

/-- A component's `inputs` / `outputs` dict: key to at-most-one value,
`none` being Python `None`, the empty sentinel. -/
abbrev Slots := Dict String (Option Value)

/-- The dynamic class of a component, fixing which `execute` body runs
(Python method dispatch on BaseComponent and its three subclasses). -/
inductive CompKind where
  | base
  | textPreprocessor
  | textLengthCalculator
  | stringIntComparator
deriving DecidableEq, Repr

/-- State of a BaseComponent object: `name`, `inputs` and `outputs`
dicts as set up by `BaseComponent.__init__`. -/
structure CompState where
  kind : CompKind
  name : String
  inputs : Slots
  outputs : Slots
deriving DecidableEq, Repr

/-- Slot dict built by `{key: None for key in keys}`. -/
def initSlots (keys : List String) : Slots :=
  keys.foldl (fun d k => dinsert d k none) []

/-- BaseComponent.__init__: all declared keys bound to None. -/
def mkComponent (kind : CompKind) (name : String)
    (input_keys output_keys : List String) : CompState :=
  { kind := kind, name := name,
    inputs := initSlots input_keys, outputs := initSlots output_keys }

/-- Python `str.split()` whitespace set (ASCII part): space, tab,
newline, carriage return, vertical tab, form feed. -/
def pyIsSpace (c : Char) : Bool :=
  c == ' ' || c == '\t' || c == '\n' || c == '\r' || c == '\x0b' || c == '\x0c'

/-- Python `s.lower()`, character-wise (the source only lowercases ASCII
text, where Char.toLower agrees with Python). -/
def pyLower (s : String) : String :=
  String.mk (s.data.map Char.toLower)

/-- Python `s.split()` worker: walk the characters accumulating the
current word (reversed); a whitespace run flushes the word if non-empty,
so no empty strings appear and edges are trimmed. -/
def pySplitAux : List Char → List Char → List String
  | [], acc => if acc.isEmpty then [] else [String.mk acc.reverse]
  | ch :: rest, acc =>
    if pyIsSpace ch then
      (if acc.isEmpty then [] else [String.mk acc.reverse]) ++ pySplitAux rest []
    else pySplitAux rest (ch :: acc)

/-- Python `" ".join(words)`. -/
def joinSpace : List String → String
  | [] => ""
  | [w] => w
  | w :: rest => w ++ " " ++ joinSpace rest

/-- Python text normalization `" ".join(s.lower().split())`: lowercase,
split on whitespace runs discarding empties, rejoin with single spaces. -/
def normalizeText (s : String) : String :=
  joinSpace (pySplitAux (pyLower s).data [])

/-- Dispatch of `component.execute()` per the source:
BaseComponent raises NotImplementedError; TextPreprocessor lowercases and
collapses whitespace when its input is a string; TextLengthCalculator
outputs the character count; StringIntComparator passes both values
through when the string is strictly longer than the int and resets both
outputs to None otherwise. A slot holding the wrong runtime type raises
typeError (AttributeError/TypeError in Python); an absent key raises
KeyError. The comparator's guard is Python short-circuit `and`: when
input_string is None, input_int is not read. -/
def execute (c : CompState) : Except PyErr CompState :=
  match c.kind with
  | .base => .error .notImplementedError
  | .textPreprocessor =>
    match dlookup c.inputs "input_text" with
    | none => .error .keyError
    | some none => .ok c
    | some (some (.vint _)) => .error .typeError
    | some (some (.vstr s)) =>
      .ok { c with outputs :=
              dinsert c.outputs "processed_text" (some (.vstr (normalizeText s))) }
  | .textLengthCalculator =>
    match dlookup c.inputs "input_text" with
    | none => .error .keyError
    | some none => .ok c
    | some (some (.vint _)) => .error .typeError
    | some (some (.vstr s)) =>
      .ok { c with outputs :=
              dinsert c.outputs "text_length" (some (.vint (s.length : Int))) }
  | .stringIntComparator =>
    match dlookup c.inputs "input_string" with
    | none => .error .keyError
    | some none => .ok c
    | some (some sv) =>
      match dlookup c.inputs "input_int" with
      | none => .error .keyError
      | some none => .ok c
      | some (some iv) =>
        match sv, iv with
        | .vstr s, .vint n =>
          if (s.length : Int) > n then
            let outs := dinsert (dinsert c.outputs "output_string" (some (.vstr s))) "output_int" (some (.vint n))
            .ok { c with outputs := outs }
          else
            let outs := dinsert (dinsert c.outputs "output_string" none) "output_int" none
            .ok { c with outputs := outs }
        | _, _ => .error .typeError

/-- State of a Pipeline together with the heap of all component objects:
`components` is the registration-ordered list of component identities,
`connections` the dict keyed by (source identity, output key) with value
(target identity, input key), exactly as in `Pipeline.__init__`. -/
structure PState where
  heap : Dict Nat CompState
  components : List Nat
  connections : Dict (Nat × String) (Nat × String)
deriving DecidableEq, Repr

/-- Dereference a component identity. -/
def heapGet (st : PState) (cid : Nat) : Option CompState :=
  dlookup st.heap cid

/-- Write back a component object's state. -/
def heapSet (st : PState) (cid : Nat) (c : CompState) : PState :=
  { st with heap := dinsert st.heap cid c }

/-- Pipeline.add_component: append to the ordered list, no checks. -/
def add_component (st : PState) (cid : Nat) : PState :=
  { st with components := st.components ++ [cid] }

/-- Pipeline.connect: validate that the output key exists on the source
component and the input key on the target component, raising ValueError
otherwise; on success store (overwrite) the registry entry keyed by the
source pair. The keyError branch is a model artifact for a dangling
identity, impossible for Python object references. -/
def connect (st : PState) (srcId : Nat) (output_property : String)
    (dstId : Nat) (input_property : String) : Except PyErr PState :=
  match heapGet st srcId, heapGet st dstId with
  | some src, some dst =>
    if !(dcontains src.outputs output_property)
        || !(dcontains dst.inputs input_property) then
      .error .valueError
    else
      .ok { st with connections :=
              dinsert st.connections (srcId, output_property) (dstId, input_property) }
  | _, _ => .error .keyError

/-- One iteration of the transfer loop in Pipeline.run: for registry item
`((srcId, outKey), (dstId, inKey))`, when the source is the just-executed
component `cid` and the output key is in its outputs dict, copy the
current output value (possibly None) into the target's input slot. -/
def transferOne (st : PState) (cid : Nat)
    (conn : (Nat × String) × (Nat × String)) : PState :=
  if conn.1.1 == cid then
    match heapGet st cid with
    | none => st
    | some c =>
      match dlookup c.outputs conn.1.2 with
      | none => st
      | some v =>
        match heapGet st conn.2.1 with
        | none => st
        | some d => heapSet st conn.2.1 { d with inputs := dinsert d.inputs conn.2.2 v }
  else st

/-- Body of the main loop of Pipeline.run for one component: execute it;
a NotImplementedError is logged and the loop continues — note `continue`
skips the transfer loop, so no propagation happens for that component;
any other exception propagates out of run; on success, write the state
back and fold the transfer over every registry item in order. -/
def runStep (st : PState) (cid : Nat) : Except PyErr PState :=
  match heapGet st cid with
  | none => .error .keyError
  | some c =>
    match execute c with
    | .error .notImplementedError => .ok st
    | .error e => .error e
    | .ok c' =>
      let st1 := heapSet st cid c'
      .ok (st1.connections.foldl (fun acc conn => transferOne acc cid conn) st1)

/-- The `for component in self.components` loop of Pipeline.run. -/
def runLoop : PState → List Nat → Except PyErr PState
  | st, [] => .ok st
  | st, cid :: rest =>
    match runStep st cid with
    | .ok st' => runLoop st' rest
    | .error e => .error e

/-- Seeding step `self.components[0].inputs.update(initial_input)`: dict
update, which also adds keys the component never declared. The key-set
comparison on line 73 of the source only logs a warning and has no
state effect, so it does not appear here. -/
def seedFirst (st : PState) (cid : Nat) (seed : Slots) : PState :=
  match heapGet st cid with
  | none => st
  | some c => heapSet st cid { c with inputs := dupdate c.inputs seed }

/-- Result dict `{component.name: component.outputs for component in
self.components}` built by item assignment in registration order. -/
def collectResults (st : PState) : List (String × Slots) :=
  st.components.foldl
    (fun acc cid =>
      match heapGet st cid with
      | none => acc
      | some c => dinsert acc c.name c.outputs) []

/-- Pipeline.run: empty pipeline returns the empty dict (after an error
log); otherwise seed the first component's inputs, run the loop, and
return the name-keyed snapshot of every component's outputs. -/
def run (st : PState) (initial_input : Slots) :
    Except PyErr (PState × List (String × Slots)) :=
  match st.components with
  | [] => .ok (st, [])
  | first :: _ =>
    let st1 := seedFirst st first initial_input
    match runLoop st1 st1.components with
    | .ok st2 => .ok (st2, collectResults st2)
    | .error e => .error e

/-- TextPreprocessor(): name and ports fixed by its constructor. -/
def mkTextPreprocessor : CompState :=
  mkComponent .textPreprocessor "Text Preprocessor" ["input_text"] ["processed_text"]

/-- TextLengthCalculator(): name and ports fixed by its constructor. -/
def mkTextLengthCalculator : CompState :=
  mkComponent .textLengthCalculator "Text Length Calculator" ["input_text"] ["text_length"]

/-- StringIntComparator(): name and ports fixed by its constructor. -/
def mkStringIntComparator : CompState :=
  mkComponent .stringIntComparator "String Int Comparator"
    ["input_string", "input_int"] ["output_string", "output_int"]

/-! Lemmas about the dict model. -/

theorem dcontains_cons [BEq κ] (p : κ × α) (rest : Dict κ α) (k : κ) :
    dcontains (p :: rest) k = ((p.1 == k) || dcontains rest k) := rfl

theorem dlookup_cons [BEq κ] (p : κ × α) (rest : Dict κ α) (k : κ) :
    dlookup (p :: rest) k = if (p.1 == k) then some p.2 else dlookup rest k := by
  cases hpk : p.1 == k <;> simp [dlookup, List.find?_cons, hpk]

theorem dlookup_append [BEq κ] (d1 d2 : Dict κ α) (k : κ) :
    dlookup (d1 ++ d2) k = (dlookup d1 k).or (dlookup d2 k) := by
  simp only [dlookup, List.find?_append]
  cases List.find? (fun p => p.1 == k) d1 <;> simp

theorem dinsert_of_contains [BEq κ] (d : Dict κ α) (k : κ) (v : α)
    (h : dcontains d k = true) :
    dinsert d k v = d.map (fun p => if p.1 == k then (k, v) else p) := by
  simp [dinsert, h]

theorem dinsert_of_not_contains [BEq κ] (d : Dict κ α) (k : κ) (v : α)
    (h : dcontains d k = false) :
    dinsert d k v = d ++ [(k, v)] := by
  simp [dinsert, h]

theorem dcontains_eq_isSome [BEq κ] (d : Dict κ α) (k : κ) :
    dcontains d k = (dlookup d k).isSome := by
  induction d with
  | nil => rfl
  | cons p rest ih =>
    rw [dcontains_cons, dlookup_cons, ih]
    cases hpk : p.1 == k <;> simp

theorem find_none_of_not_dcontains [BEq κ] (d : Dict κ α) (k : κ)
    (h : dcontains d k = false) : d.find? (fun p => p.1 == k) = none := by
  apply List.find?_eq_none.mpr
  intro p hp hpk
  have hany : d.any (fun p => p.1 == k) = true := List.any_eq_true.mpr ⟨p, hp, hpk⟩
  rw [dcontains, hany] at h
  exact Bool.noConfusion h

theorem dlookup_eq_none_of_not_dcontains [BEq κ] (d : Dict κ α) (k : κ)
    (h : dcontains d k = false) : dlookup d k = none := by
  rw [dlookup, find_none_of_not_dcontains d k h]; rfl

theorem dlookup_dinsert_self [BEq κ] [LawfulBEq κ] (d : Dict κ α) (k : κ) (v : α) :
    dlookup (dinsert d k v) k = some v := by
  cases hc : dcontains d k with
  | true =>
    rw [dinsert_of_contains d k v hc]
    induction d with
    | nil => exact absurd hc (by simp [dcontains])
    | cons p rest ih =>
      rw [List.map_cons, dlookup_cons]
      cases hpk : p.1 == k with
      | true => simp [hpk]
      | false =>
        have hcr : dcontains rest k = true := by
          rw [dcontains_cons, hpk, Bool.false_or] at hc; exact hc
        simpa [hpk] using ih hcr
  | false =>
    rw [dinsert_of_not_contains d k v hc, dlookup_append,
        dlookup_eq_none_of_not_dcontains d k hc]
    simp [dlookup_cons]

theorem dlookup_dinsert_ne [BEq κ] [LawfulBEq κ] (d : Dict κ α) (k k' : κ) (v : α)
    (hne : (k == k') = false) : dlookup (dinsert d k v) k' = dlookup d k' := by
  cases hc : dcontains d k with
  | true =>
    rw [dinsert_of_contains d k v hc]
    clear hc
    induction d with
    | nil => rfl
    | cons p rest ih =>
      rw [List.map_cons, dlookup_cons, dlookup_cons]
      cases hpk : p.1 == k with
      | true =>
        have hpe : p.1 = k := eq_of_beq hpk
        have hp' : (p.1 == k') = false := by rw [hpe]; exact hne
        simp [hpk, hp', hne, ih]
      | false =>
        cases hpk' : p.1 == k' <;> simp [hpk, hpk', ih]
  | false =>
    rw [dinsert_of_not_contains d k v hc, dlookup_append]
    have h1 : dlookup [(k, v)] k' = none := by simp [dlookup_cons, hne, dlookup]
    rw [h1]
    cases dlookup d k' <;> rfl

theorem dcontains_dinsert [BEq κ] [LawfulBEq κ] (d : Dict κ α) (k k' : κ) (v : α) :
    dcontains (dinsert d k v) k' = (dcontains d k' || (k == k')) := by
  cases hkk : k == k' with
  | true =>
    have : k = k' := eq_of_beq hkk
    subst this
    rw [dcontains_eq_isSome, dlookup_dinsert_self]
    simp
  | false =>
    rw [dcontains_eq_isSome, dlookup_dinsert_ne d k k' v hkk, ← dcontains_eq_isSome]
    simp

theorem dcontains_dupdate_left [BEq κ] [LawfulBEq κ] (d e : Dict κ α) (k : κ)
    (h : dcontains d k = true) : dcontains (dupdate d e) k = true := by
  induction e generalizing d with
  | nil => exact h
  | cons p rest ih =>
    show dcontains (dupdate (dinsert d p.1 p.2) rest) k = true
    exact ih _ (by rw [dcontains_dinsert, h, Bool.true_or])

theorem dcontains_dupdate_right [BEq κ] [LawfulBEq κ] (d e : Dict κ α) (k : κ)
    (h : dcontains e k = true) : dcontains (dupdate d e) k = true := by
  induction e generalizing d with
  | nil => exact absurd h (by simp [dcontains])
  | cons p rest ih =>
    show dcontains (dupdate (dinsert d p.1 p.2) rest) k = true
    rw [dcontains_cons] at h
    cases hpk : p.1 == k with
    | true =>
      apply dcontains_dupdate_left
      rw [dcontains_dinsert, hpk, Bool.or_true]
    | false =>
      rw [hpk, Bool.false_or] at h
      exact ih _ h

theorem dlookup_foldl_dinsert [BEq κ] [LawfulBEq κ] (entries : List (κ × α))
    (d : Dict κ α) (k : κ) :
    dlookup (entries.foldl (fun acc p => dinsert acc p.1 p.2) d) k =
      ((entries.reverse.find? (fun p => p.1 == k)).map (fun p => p.2)).or (dlookup d k) := by
  induction entries generalizing d with
  | nil => simp
  | cons p rest ih =>
    rw [List.foldl_cons, ih, List.reverse_cons, List.find?_append]
    cases hf : rest.reverse.find? (fun q => q.1 == k) with
    | some q => simp
    | none =>
      cases hpk : p.1 == k with
      | true =>
        have hpe : p.1 = k := eq_of_beq hpk
        rw [show dinsert d p.1 p.2 = dinsert d k p.2 from by rw [hpe]]
        rw [dlookup_dinsert_self]
        simp [List.find?_cons, hpk]
      | false =>
        rw [dlookup_dinsert_ne d p.1 k p.2 hpk]
        simp [List.find?_cons, hpk]

def countKey [BEq κ] (d : Dict κ α) (k : κ) : Nat :=
  d.countP (fun p => p.1 == k)

def atMostOne [BEq κ] (d : Dict κ α) : Prop := ∀ k, countKey d k ≤ 1

theorem countKey_eq_zero_of_not_dcontains [BEq κ] (d : Dict κ α) (k : κ)
    (h : dcontains d k = false) : countKey d k = 0 := by
  apply List.countP_eq_zero.mpr
  intro p hp hpk
  have hany : d.any (fun q => q.1 == k) = true := List.any_eq_true.mpr ⟨p, hp, hpk⟩
  rw [dcontains, hany] at h
  exact Bool.noConfusion h

theorem countKey_dinsert_le [BEq κ] [LawfulBEq κ] (d : Dict κ α) (k k' : κ) (v : α)
    (h : countKey d k' ≤ 1) : countKey (dinsert d k v) k' ≤ 1 := by
  cases hc : dcontains d k with
  | true =>
    rw [dinsert_of_contains d k v hc, countKey, List.countP_map]
    cases hkk : k == k' with
    | true =>
      have hke : k = k' := eq_of_beq hkk
      subst hke
      refine le_trans (le_of_eq (List.countP_congr ?_)) h
      intro p hp
      by_cases hpk : (p.1 == k) = true <;> simp [Function.comp, hpk]
    | false =>
      refine le_trans (List.countP_mono_left ?_) h
      intro p hp hpred
      by_cases hpk : (p.1 == k) = true
      · simp [Function.comp, hpk, hkk] at hpred
      · simpa [Function.comp, hpk] using hpred
  | false =>
    rw [dinsert_of_not_contains d k v hc, countKey, List.countP_append]
    cases hkk : k == k' with
    | true =>
      have hke : k = k' := eq_of_beq hkk
      subst hke
      have hz := countKey_eq_zero_of_not_dcontains d k hc
      rw [countKey] at hz
      rw [hz]
      simp [List.countP_cons]
    | false =>
      have : List.countP (fun p => p.1 == k') [(k, v)] = 0 := by
        simp [List.countP_cons, hkk]
      rw [this]
      simpa [countKey] using h

/-! Lemmas about the heap and the pipeline operations. -/

/-- Writing a component back and dereferencing it returns the new state. -/
theorem heapGet_heapSet_self (st : PState) (cid : Nat) (c : CompState) :
    heapGet (heapSet st cid c) cid = some c :=
  dlookup_dinsert_self st.heap cid c

/-- Outputs dict produced by StringIntComparator.execute when both inputs
are present: both values pass through when len(s) > n, else both output
slots are reset to None. -/
def comparatorOutputs (outs : Slots) (s : String) (n : Int) : Slots :=
  if (s.length : Int) > n then
    dinsert (dinsert outs "output_string" (some (.vstr s))) "output_int" (some (.vint n))
  else
    dinsert (dinsert outs "output_string" none) "output_int" none

/-- C5: whenever both comparator input slots are non-empty (a string and
an int), execute succeeds and writes exactly the pass-through outputs when
the string's length strictly exceeds the int, and resets both output
slots to the empty sentinel None otherwise. -/
theorem comparator_passes_or_resets (c : CompState) (s : String) (n : Int)
    (hk : c.kind = .stringIntComparator)
    (hs : dlookup c.inputs "input_string" = some (some (.vstr s)))
    (hn : dlookup c.inputs "input_int" = some (some (.vint n))) :
    execute c = .ok { c with outputs := comparatorOutputs c.outputs s n } := by
  unfold execute comparatorOutputs
  rw [hk, hs, hn]
  by_cases hcond : (s.length : Int) > n <;> simp [hcond]

/-- Comparator with both input slots assigned, as the pipeline would. -/
def comparatorFed (sv iv : Option Value) : CompState :=
  { mkStringIntComparator with
    inputs := dinsert (dinsert mkStringIntComparator.inputs "input_string" sv) "input_int" iv }

/-- Comparator holding a 5-character string against threshold 10. -/
def cmpShort : CompState := comparatorFed (some (.vstr "abcde")) (some (.vint 10))

/-- Comparator holding a 15-character string against threshold 10. -/
def cmpLong : CompState := comparatorFed (some (.vstr "abcdefghijklmno")) (some (.vint 10))

/-- Witness for C5 at the spec's two sample points: length 5 against
threshold 10 resets both outputs to None; length 15 against threshold 10
passes string and int through unchanged. -/
theorem comparator_passes_or_resets_witness :
    execute cmpShort
      = .ok { cmpShort with outputs := [("output_string", none), ("output_int", none)] }
    ∧ execute cmpLong
      = .ok { cmpLong with outputs := [("output_string", some (.vstr "abcdefghijklmno")),
                                       ("output_int", some (.vint 10))] } := by
  constructor
  · rw [comparator_passes_or_resets cmpShort "abcde" 10 rfl rfl rfl]; rfl
  · rw [comparator_passes_or_resets cmpLong "abcdefghijklmno" 10 rfl rfl rfl]; rfl

/-- Text length calculator fed the normalized form of "HelLo WorLD". -/
def calcFedHello : CompState :=
  { mkTextLengthCalculator with
    inputs := dinsert mkTextLengthCalculator.inputs "input_text"
                (some (.vstr (normalizeText "HelLo WorLD"))) }

/-- C6: whenever the text normalizer's input slot holds a string, its
output slot becomes the lowercase whitespace-collapsed form of it;
"HelLo WorLD" normalizes to "hello world" and the length counter applied
to that result yields 11. -/
theorem preprocessor_normalizes (c : CompState) (s : String)
    (hk : c.kind = .textPreprocessor)
    (hi : dlookup c.inputs "input_text" = some (some (.vstr s))) :
    execute c = .ok { c with outputs := dinsert c.outputs "processed_text" (some (.vstr (normalizeText s))) }
    ∧ normalizeText "HelLo WorLD" = "hello world"
    ∧ (match execute calcFedHello with
       | .ok c' => dlookup c'.outputs "text_length"
       | .error _ => none) = some (some (.vint 11)) := by
  refine ⟨?_, rfl, rfl⟩
  unfold execute
  rw [hk, hi]

/-- Text normalizer fed the sample string "HelLo WorLD". -/
def preFedHello : CompState :=
  { mkTextPreprocessor with
    inputs := dinsert mkTextPreprocessor.inputs "input_text" (some (.vstr "HelLo WorLD")) }

/-- Witness for C6: run the normalizer on the sample string. -/
theorem preprocessor_normalizes_witness :
    execute preFedHello
      = .ok { preFedHello with outputs := [("processed_text", some (.vstr "hello world"))] } := by
  rw [(preprocessor_normalizes preFedHello "HelLo WorLD" rfl rfl).1]; rfl

/-- C9: each concrete sample component silently no-ops when a required
input slot holds the empty sentinel None — execute raises nothing and
returns the component unchanged, outputs included. The comparator's guard
short-circuits, so input_int being None (or input_string being None) with
the other slot arbitrary also no-ops. -/
theorem concrete_components_noop_on_empty_input
    (c1 c2 c3 : CompState) (a b : Option Value)
    (h1k : c1.kind = .textPreprocessor)
    (h1 : dlookup c1.inputs "input_text" = some none)
    (h2k : c2.kind = .textLengthCalculator)
    (h2 : dlookup c2.inputs "input_text" = some none)
    (h3k : c3.kind = .stringIntComparator)
    (h3a : dlookup c3.inputs "input_string" = some a)
    (h3b : dlookup c3.inputs "input_int" = some b)
    (h3e : a = none ∨ b = none) :
    execute c1 = .ok c1 ∧ execute c2 = .ok c2 ∧ execute c3 = .ok c3 := by
  refine ⟨?_, ?_, ?_⟩
  · unfold execute; rw [h1k, h1]
  · unfold execute; rw [h2k, h2]
  · rcases h3e with he | he
    · subst he; unfold execute; rw [h3k, h3a]
    · subst he
      cases ha : a with
      | none => rw [ha] at h3a; unfold execute; rw [h3k, h3a]
      | some sv => rw [ha] at h3a; unfold execute; rw [h3k, h3a, h3b]

/-- Witness for C9: fresh components (all slots None) no-op. -/
theorem concrete_components_noop_on_empty_input_witness :
    execute mkTextPreprocessor = .ok mkTextPreprocessor
    ∧ execute mkTextLengthCalculator = .ok mkTextLengthCalculator
    ∧ execute mkStringIntComparator = .ok mkStringIntComparator :=
  concrete_components_noop_on_empty_input
    mkTextPreprocessor mkTextLengthCalculator mkStringIntComparator none none
    rfl rfl rfl rfl rfl rfl rfl (Or.inl rfl)

/-- C4: Pipeline.connect with an output key not declared on the source
component, or an input key not declared on the target component, raises
ValueError ("Invalid connection") before touching the registry; since
connect is checked before any mutation, the caller's registry is exactly
as before the call. -/
theorem connect_rejects_invalid_key (st : PState) (srcId dstId : Nat)
    (outKey inKey : String) (src dst : CompState)
    (hs : heapGet st srcId = some src) (hd : heapGet st dstId = some dst)
    (hbad : dcontains src.outputs outKey = false ∨ dcontains dst.inputs inKey = false) :
    connect st srcId outKey dstId inKey = .error .valueError := by
  unfold connect
  rw [hs, hd]
  rcases hbad with hb | hb <;> simp [hb]

/-- C1 (amended): the transfer of a registered connection fires whenever
the output KEY is present in the source's outputs dict, whatever the
VALUE is — the current output value v, including the empty sentinel None,
is written over the target's input slot. -/
theorem transferOne_copies_even_empty_output (st : PState) (cid dstId : Nat)
    (outKey inKey : String) (c d : CompState) (v : Option Value)
    (hc : heapGet st cid = some c)
    (hv : dlookup c.outputs outKey = some v)
    (hd : heapGet st dstId = some d) :
    transferOne st cid ((cid, outKey), (dstId, inKey))
      = heapSet st dstId { d with inputs := dinsert d.inputs inKey v } := by
  simp [transferOne, hc, hv, hd]

/-- C2 (amended): when a component's execute raises NotImplementedError,
Pipeline.run's `continue` skips the whole transfer scan for that
component — the step leaves the pipeline state completely unchanged. -/
theorem runStep_failure_skips_transfer (st : PState) (cid : Nat) (c : CompState)
    (hc : heapGet st cid = some c)
    (he : execute c = .error .notImplementedError) :
    runStep st cid = .ok st := by
  simp [runStep, hc, he]

/-- C7: a NotImplementedError from a component's execute does not abort
the run — the loop proceeds over the remaining components exactly as if
the failed component were simply passed over, so every registered
component still gets its turn. -/
theorem runLoop_continues_after_failed_execute (st : PState) (cid : Nat)
    (rest : List Nat) (c : CompState)
    (hc : heapGet st cid = some c)
    (he : execute c = .error .notImplementedError) :
    runLoop st (cid :: rest) = runLoop st rest := by
  simp [runLoop, runStep, hc, he]

/-- C3 (amended): seeding the first component via dict update can grow
its input key set — a seed key the component never declared is added to
its inputs dict (the source only logs a warning about the mismatch). -/
theorem seedFirst_adds_undeclared_key (st : PState) (cid : Nat) (c : CompState)
    (seed : Slots) (k : String)
    (hc : heapGet st cid = some c)
    (hnd : dcontains c.inputs k = false)
    (hk : dcontains seed k = true) :
    heapGet (seedFirst st cid seed) cid = some { c with inputs := dupdate c.inputs seed }
    ∧ dcontains (dupdate c.inputs seed) k = true := by
  constructor
  · rw [seedFirst, hc]
    exact heapGet_heapSet_self st cid { c with inputs := dupdate c.inputs seed }
  · exact dcontains_dupdate_right c.inputs seed k hk

/-- Total unwrapping helper for states built through connect. -/
def okOr (x : Except PyErr PState) (d : PState) : PState :=
  match x with
  | .ok s => s
  | .error _ => d

/-- Calculator (identity 1) and normalizer (identity 2) registered in
that order, not yet wired. -/
def c1Base : PState :=
  { heap := [(1, mkTextLengthCalculator), (2, mkTextPreprocessor)],
    components := [1, 2], connections := [] }

/-- Same pipeline with the normalizer's output wired back into the
calculator's input. -/
def c1Wired : PState := okOr (connect c1Base 2 "processed_text" 1 "input_text") c1Base

/-- Seed giving the first (calculator) component the string "abc". -/
def c1Seed : Slots := [("input_text", some (.vstr "abc"))]

/-- Counterexample to C1 as stated: in this run the normalizer executes
with an empty input, so its output slot stays None — yet the registered
connection still copies that None over the calculator's input slot, which
held "abc" from the seed. An empty output value IS written over a
downstream input. -/
theorem run_writes_empty_output_over_input_cex :
    dlookup c1Wired.connections (2, "processed_text") = some (1, "input_text")
    ∧ (match run c1Wired c1Seed with
       | .ok (st', _) => (heapGet st' 2).map (fun c => dlookup c.outputs "processed_text")
       | .error _ => none) = some (some none)
    ∧ (match run c1Wired c1Seed with
       | .ok (st', _) => (heapGet st' 1).map (fun c => dlookup c.inputs "input_text")
       | .error _ => none) = some (some none) :=
  ⟨rfl, rfl, rfl⟩

/-- Witness for the amended C1: the transfer copies the empty output. -/
theorem transferOne_copies_even_empty_output_witness :
    transferOne c1Base 2 ((2, "processed_text"), (1, "input_text"))
      = heapSet c1Base 1
          { mkTextLengthCalculator with
            inputs := dinsert mkTextLengthCalculator.inputs "input_text" none } :=
  transferOne_copies_even_empty_output c1Base 2 1 "processed_text" "input_text"
    mkTextPreprocessor mkTextLengthCalculator none rfl rfl rfl

/-- Calculator (identity 1) and an abstract BaseComponent with one output
port (identity 2), registered in that order, not yet wired. -/
def c2Base : PState :=
  { heap := [(1, mkTextLengthCalculator), (2, mkComponent .base "Base" [] ["out"])],
    components := [1, 2], connections := [] }

/-- Same pipeline with the base component's output wired back into the
calculator's input. -/
def c2Wired : PState := okOr (connect c2Base 2 "out" 1 "input_text") c2Base

/-- Seed giving the first (calculator) component the string "abc". -/
def c2Seed : Slots := [("input_text", some (.vstr "abc"))]

/-- Counterexample to C2 as stated: component 2's execute raises the
NotImplementedError, and the registered connection from it is NOT acted
on — the calculator's input keeps "abc". Had the transfer scan run after
the failure, it would have copied component 2's None output over that
slot (last conjunct applies the scan to the final state and gets None). -/
theorem failed_component_skips_transfer_cex :
    dlookup c2Wired.connections (2, "out") = some (1, "input_text")
    ∧ (match run c2Wired c2Seed with
       | .ok (st', _) => (heapGet st' 2).map (fun c => execute c)
       | .error _ => none) = some (.error .notImplementedError)
    ∧ (match run c2Wired c2Seed with
       | .ok (st', _) => (heapGet st' 1).map (fun c => dlookup c.inputs "input_text")
       | .error _ => none) = some (some (some (.vstr "abc")))
    ∧ (match run c2Wired c2Seed with
       | .ok (st', _) =>
         (heapGet (c2Wired.connections.foldl (fun acc conn => transferOne acc 2 conn) st') 1).map
           (fun c => dlookup c.inputs "input_text")
       | .error _ => none) = some (some none) :=
  ⟨rfl, rfl, rfl, rfl⟩

/-- Witness for the amended C2 at the base component of c2Wired. -/
theorem runStep_failure_skips_transfer_witness :
    runStep c2Wired 2 = .ok c2Wired :=
  runStep_failure_skips_transfer c2Wired 2 (mkComponent .base "Base" [] ["out"]) rfl rfl

/-- Witness for C7: the loop over [2, 1] on c2Wired continues past the
failing component 2 and is the loop over [1]. -/
theorem runLoop_continues_after_failed_execute_witness :
    runLoop c2Wired [2, 1] = runLoop c2Wired [1] :=
  runLoop_continues_after_failed_execute c2Wired 2 [1]
    (mkComponent .base "Base" [] ["out"]) rfl rfl

/-- One-component pipeline holding just the text normalizer. -/
def c3Base : PState :=
  { heap := [(1, mkTextPreprocessor)], components := [1], connections := [] }

/-- Seed whose only key is undeclared on the normalizer. -/
def c3Seed : Slots := [("bogus", some (.vint 1))]

/-- Counterexample to C3 as stated: the normalizer never declared a
"bogus" input, yet after a run seeded with key "bogus" that key IS in its
inputs dict — the input key set grew under a Pipeline operation. -/
theorem seed_bogus_key_added_cex :
    dcontains mkTextPreprocessor.inputs "bogus" = false
    ∧ (match run c3Base c3Seed with
       | .ok (st', _) => (heapGet st' 1).map (fun c => dcontains c.inputs "bogus")
       | .error _ => none) = some true :=
  ⟨rfl, rfl⟩

/-- Witness for the amended C3 on the c3Base pipeline. -/
theorem seedFirst_adds_undeclared_key_witness :
    heapGet (seedFirst c3Base 1 c3Seed) 1
      = some { mkTextPreprocessor with inputs := dupdate mkTextPreprocessor.inputs c3Seed }
    ∧ dcontains (dupdate mkTextPreprocessor.inputs c3Seed) "bogus" = true :=
  seedFirst_adds_undeclared_key c3Base 1 mkTextPreprocessor c3Seed "bogus" rfl rfl rfl

/-- Witness for C4: connecting a nonexistent output key "nope" fails with
ValueError. -/
theorem connect_rejects_invalid_key_witness :
    connect c1Base 2 "nope" 1 "input_text" = .error .valueError :=
  connect_rejects_invalid_key c1Base 2 1 "nope" "input_text"
    mkTextPreprocessor mkTextLengthCalculator rfl rfl (Or.inl rfl)

/-- Successful connect extends/overwrites the registry at the source
pair, leaving everything else of the state unchanged. -/
theorem connect_ok_connections (st st' : PState) (srcId : Nat) (outKey : String)
    (dstId : Nat) (inKey : String)
    (h : connect st srcId outKey dstId inKey = .ok st') :
    st'.connections = dinsert st.connections (srcId, outKey) (dstId, inKey) := by
  unfold connect at h
  split at h
  · split at h
    · cases h
    · injection h with h1
      rw [← h1]
  · cases h

/-- C8: the registry maps each (source, output key) pair to at most one
target, and of two successful connect calls sharing that pair only the
most recent registration survives. -/
theorem connect_last_registration_wins (st st1 st2 : PState) (srcId : Nat)
    (outKey : String) (d1 d2 : Nat) (i1 i2 : String)
    (hone : atMostOne st.connections)
    (h1 : connect st srcId outKey d1 i1 = .ok st1)
    (h2 : connect st1 srcId outKey d2 i2 = .ok st2) :
    dlookup st2.connections (srcId, outKey) = some (d2, i2)
    ∧ atMostOne st2.connections := by
  have e1 := connect_ok_connections st st1 srcId outKey d1 i1 h1
  have e2 := connect_ok_connections st1 st2 srcId outKey d2 i2 h2
  constructor
  · rw [e2]
    exact dlookup_dinsert_self _ _ _
  · intro key
    rw [e2, e1]
    exact countKey_dinsert_le _ _ _ _ (countKey_dinsert_le _ _ _ _ (hone key))

/-- Three fresh components: normalizer (1), calculator (2), comparator (3). -/
def c8Base : PState :=
  { heap := [(1, mkTextPreprocessor), (2, mkTextLengthCalculator), (3, mkStringIntComparator)],
    components := [1, 2, 3], connections := [] }

/-- First registration for source pair (1, processed_text). -/
def c8St1 : PState := okOr (connect c8Base 1 "processed_text" 2 "input_text") c8Base

/-- Second registration for the same source pair, different target. -/
def c8St2 : PState := okOr (connect c8St1 1 "processed_text" 3 "input_string") c8St1

/-- Witness for C8: after the two connects only the second target is
registered for the shared source pair, and every key is unique. -/
theorem connect_last_registration_wins_witness :
    dlookup c8St2.connections (1, "processed_text") = some (3, "input_string")
    ∧ atMostOne c8St2.connections :=
  connect_last_registration_wins c8Base c8St1 c8St2 1 "processed_text" 2 3
    "input_text" "input_string" (fun _ => Nat.zero_le 1) rfl rfl

/-- Name/outputs pairs that the result dict of run is built from, in
registration order. -/
def resultEntries (st : PState) : List (String × Slots) :=
  st.components.filterMap (fun cid => (heapGet st cid).map (fun c => (c.name, c.outputs)))

/-- The result fold of collectResults is the plain dinsert fold over the
name/outputs pairs. -/
theorem collect_go (st : PState) (l : List Nat) (acc : List (String × Slots)) :
    l.foldl (fun acc cid =>
        match heapGet st cid with
        | none => acc
        | some c => dinsert acc c.name c.outputs) acc
      = (l.filterMap (fun cid => (heapGet st cid).map (fun c => (c.name, c.outputs)))).foldl
          (fun acc p => dinsert acc p.1 p.2) acc := by
  induction l generalizing acc with
  | nil => rfl
  | cons cid rest ih =>
    cases hg : heapGet st cid <;> simp [hg, List.filterMap_cons, ih]

/-- collectResults as a dinsert fold over resultEntries. -/
theorem collectResults_eq (st : PState) :
    collectResults st = (resultEntries st).foldl (fun acc p => dinsert acc p.1 p.2) [] := by
  rw [collectResults, resultEntries]
  exact collect_go st st.components []

/-- Unfolding of run on an empty pipeline. -/
theorem run_nil (st : PState) (seed : Slots) (hc : st.components = []) :
    run st seed = .ok (st, []) := by
  unfold run
  rw [hc]

/-- Unfolding of run on a non-empty pipeline. -/
theorem run_cons (st : PState) (seed : Slots) (first : Nat) (rest : List Nat)
    (hc : st.components = first :: rest) :
    run st seed = (match runLoop (seedFirst st first seed) (seedFirst st first seed).components with
      | .ok st2 => .ok (st2, collectResults st2)
      | .error e => .error e) := by
  unfold run
  rw [hc]

/-- C10: for any name, the result dict of a completed run holds the
outputs of the LAST component in registration order bearing that name
(the reversed-list first match); components sharing a name earlier in the
order have no entry of their own even though they executed. -/
theorem run_result_keeps_last_duplicate_name (st : PState) (seed : Slots)
    (st' : PState) (res : List (String × Slots)) (n : String)
    (h : run st seed = .ok (st', res)) :
    dlookup res n
      = ((resultEntries st').reverse.find? (fun p => p.1 == n)).map (fun p => p.2) := by
  cases hc : st.components with
  | nil =>
    rw [run_nil st seed hc] at h
    injection h with hp
    cases hp
    simp [dlookup, resultEntries, hc]
  | cons first rest =>
    rw [run_cons st seed first rest hc] at h
    cases hr : runLoop (seedFirst st first seed) (seedFirst st first seed).components with
    | ok st2 =>
      simp only [hr] at h
      injection h with hp
      cases hp
      rw [collectResults_eq, dlookup_foldl_dinsert]
      cases (resultEntries st').reverse.find? (fun p => p.1 == n) <;> simp [dlookup]
    | error e =>
      simp only [hr] at h
      exact absurd h (by simp)

/-- Two distinct calculator objects with the same class name, registered
in order 1 then 2, no connections. -/
def c10Base : PState :=
  { heap := [(1, mkTextLengthCalculator), (2, mkTextLengthCalculator)],
    components := [1, 2], connections := [] }

/-- Seed giving the first calculator the string "abc". -/
def c10Seed : Slots := [("input_text", some (.vstr "abc"))]

/-- Full output of the duplicate-name run. -/
def c10Out : Except PyErr (PState × List (String × Slots)) := run c10Base c10Seed

/-- Final pipeline state of the duplicate-name run. -/
def c10FinalState : PState :=
  match c10Out with
  | .ok (s, _) => s
  | .error _ => c10Base

/-- Result dict of the duplicate-name run. -/
def c10Res : List (String × Slots) :=
  match c10Out with
  | .ok (_, r) => r
  | .error _ => []

/-- Witness for C10: the run succeeds; its result holds a single entry
for the shared name, equal to the last registered calculator's outputs
(all None), while the first calculator did execute and produced 3. -/
theorem run_result_keeps_last_duplicate_name_witness :
    run c10Base c10Seed = .ok (c10FinalState, c10Res)
    ∧ dlookup c10Res "Text Length Calculator"
        = ((resultEntries c10FinalState).reverse.find?
            (fun p => p.1 == "Text Length Calculator")).map (fun p => p.2)
    ∧ dlookup c10Res "Text Length Calculator" = some [("text_length", none)]
    ∧ (heapGet c10FinalState 1).map (fun c => dlookup c.outputs "text_length")
        = some (some (some (.vint 3))) :=
  ⟨rfl,
   run_result_keeps_last_duplicate_name c10Base c10Seed c10FinalState c10Res
     "Text Length Calculator" rfl,
   rfl, rfl⟩
